import Mathlib

/-!
# SimplleNote — verification of the HTTP-to-storage layer

Shallow embedding of `src/main.go` (package `main`): a note-taking web
service storing notes in a `notes` table and exposing three routes
(`/`, `/api/notes`, `/api/notes/`).  Database state is modelled as a list
of rows plus the `SERIAL` id counter; time is an abstract integer
timestamp supplied to the insert statement (the column default `NOW()`).
Database I/O failures (connection loss etc.) are not modelled; the one
storage-side error that depends on request data — PostgreSQL's coercion
of the textual delete id against the integer `id` column — is modelled
explicitly.
-/

/-- `Note` mirrors the Go struct (main.go:19-24): `ID int64`,
`Title`, `Body string`, `CreatedAt time.Time`.  Timestamps are
abstracted to integers. -/
structure Note where
  id : Int
  title : String
  body : String
  createdAt : Int
deriving Repr, DecidableEq

/-- The `notes` table (main.go:60-72): the stored rows together with the
next value of the `SERIAL` primary-key sequence. -/
structure DB where
  notes : List Note
  nextId : Int
deriving Repr, DecidableEq

/-- An HTTP response as the handlers build it: status code, the
`Content-Type` header if one is set, and the body text. -/
structure Response where
  status : Nat
  contentType : Option String
  body : String
deriving Repr, DecidableEq

/-- Go's `http.Error(w, msg, code)`: sets a text/plain content type and
writes the message followed by a newline. -/
def httpError (msg : String) (code : Nat) : Response :=
  { status := code
    contentType := some "text/plain; charset=utf-8"
    body := msg ++ "\n" }

/-- Go's `http.NotFound(w, r)` = `http.Error(w, "404 page not found", 404)`. -/
def notFoundResponse : Response :=
  httpError "404 page not found" 404

/-- The `INSERT INTO notes (title, body) VALUES ($1, $2) RETURNING id`
statement issued by `returnID` (main.go:157-160): a fresh row receives
the next serial id and the server clock as `created_at`, and the new id
is returned.  (Spec §4.1 names this operation `insertNote`.) -/
def insertNote (db : DB) (now : Int) (title body : String) : DB × Int :=
  ({ notes := db.notes ++ [{ id := db.nextId, title := title, body := body,
                             createdAt := now }]
     nextId := db.nextId + 1 }, db.nextId)

/-- Ordering used by the list query: `a` may precede `b` iff
`b.created_at ≤ a.created_at` (descending, newest first). -/
def createdDesc (a b : Note) : Prop := b.createdAt ≤ a.createdAt

instance : DecidableRel createdDesc := fun a b =>
  inferInstanceAs (Decidable (b.createdAt ≤ a.createdAt))

instance : IsTotal Note createdDesc :=
  ⟨fun a b => (le_total b.createdAt a.createdAt).elim Or.inl Or.inr⟩

instance : IsTrans Note createdDesc :=
  ⟨fun _ _ _ h1 h2 => le_trans h2 h1⟩

/-- The `SELECT id, title, body, created_at FROM notes ORDER BY
created_at DESC` query issued by `listNotes` (main.go:113-115): the
stored rows sorted by `created_at` descending. -/
def listNotesQuery (db : DB) : List Note :=
  db.notes.insertionSort createdDesc

/-- Skip leading whitespace characters. -/
def skipSpaces : List Char → List Char
  | [] => []
  | c :: rest =>
    if c = ' ' ∨ c = '\t' ∨ c = '\n' ∨ c = '\r' then skipSpaces rest
    else c :: rest

/-- Longest prefix of decimal digits, and the remainder. -/
def digitSpan : List Char → List Char × List Char
  | [] => ([], [])
  | c :: rest =>
    if c.isDigit then
      let p := digitSpan rest
      (c :: p.1, p.2)
    else ([], c :: rest)

/-- Numeric value of a digit string. -/
def digitsToNat (ds : List Char) : Nat :=
  ds.foldl (fun acc c => acc * 10 + (c.toNat - 48)) 0

/-- PostgreSQL's coercion of a text parameter to the integer `id`
column (`int4in`): optional surrounding whitespace, an optional sign,
then at least one digit and nothing else, within the int4 range
`[-2147483648, 2147483647]`.  Malformed text raises `invalid input
syntax`; a syntactically valid number outside the range raises
`value ... out of range` — either way the statement fails.  Error texts
carry the `pq: ` prefix the driver adds. -/
def pgCoerceInt (s : String) : Except String Int :=
  let cs := skipSpaces s.toList
  let signAndRest : Bool × List Char :=
    match cs with
    | c :: rest =>
      if c = '-' then (true, rest)
      else if c = '+' then (false, rest)
      else (false, cs)
    | [] => (false, [])
  let ds := digitSpan signAndRest.2
  if ds.1 = [] then
    .error ("pq: invalid input syntax for type integer: \"" ++ s ++ "\"")
  else
    match skipSpaces ds.2 with
    | [] =>
      let v : Int :=
        if signAndRest.1 then -(digitsToNat ds.1 : Int)
        else (digitsToNat ds.1 : Int)
      if v < -2147483648 ∨ 2147483647 < v then
        .error ("pq: value \"" ++ s ++ "\" is out of range for type integer")
      else .ok v
    | _ => .error ("pq: invalid input syntax for type integer: \"" ++ s ++ "\"")

/-- The `DELETE FROM notes WHERE id = $1` statement (main.go:104) with a
textual parameter against the integer `id` column.  PostgreSQL coerces
the text to an integer and fails the statement when the coercion fails
(spec §4.2: "the store's own type coercion determines whether it
errors"); on success rows with the matching id are removed, matching
nothing being a plain no-op. -/
def deleteNote (db : DB) (idStr : String) : Except String DB :=
  match pgCoerceInt idStr with
  | .error e => .error e
  | .ok n => .ok { db with notes := db.notes.filter (fun note => note.id ≠ n) }

/-- JSON string escaping as Go `encoding/json` performs it for the
characters that need it. -/
def jsonEscapeChar (c : Char) : String :=
  if c = '"' then "\\\""
  else if c = '\\' then "\\\\"
  else if c = '\n' then "\\n"
  else if c = '\t' then "\\t"
  else if c = '\r' then "\\r"
  else String.singleton c

/-- A JSON string literal for `s`. -/
def jsonStringLit (s : String) : String :=
  "\"" ++ String.join (s.toList.map jsonEscapeChar) ++ "\""

/-- JSON serialization of one note per the struct tags (main.go:19-24). -/
def encodeNote (n : Note) : String :=
  "\x7b\"id\":" ++ toString n.id
    ++ ",\"title\":" ++ jsonStringLit n.title
    ++ ",\"body\":" ++ jsonStringLit n.body
    ++ ",\"created_at\":" ++ toString n.createdAt ++ "\x7d"

/-- Go `json.Encoder.Encode` applied to the `[]Note` slice built by
`listNotes` (main.go:121-131).  The slice is declared `var notes []Note`
and only ever appended to, so it is nil exactly when no row was scanned,
and the nil slice serializes as the JSON literal `null`, not as `[]`. -/
def encodeNotes (ns : List Note) : String :=
  if ns.isEmpty then "null"
  else "[" ++ String.intercalate "," (ns.map encodeNote) ++ "]"

/-- `listNotes` (main.go:112-132): runs the ordered select, sets the JSON
content type and encodes the slice (`Encode` appends a newline). -/
def listNotes (db : DB) : Response :=
  { status := 200
    contentType := some "application/json"
    body := encodeNotes (listNotesQuery db) ++ "\n" }

/-- An HTTP request as the handlers consume it: method, path, the value
of the `Content-Type` header (`""` when absent), and the raw body.  URL
query parameters are not modelled: no route of this service is addressed
with a query, so `r.FormValue` falls back to the parsed body only. -/
structure Request where
  method : String
  path : String
  contentType : String
  rawBody : String
deriving Repr, DecidableEq

/-- Value of a hexadecimal digit, if `c` is one. -/
def hexVal (c : Char) : Option Nat :=
  if '0' ≤ c ∧ c ≤ '9' then some (c.toNat - 48)
  else if 'a' ≤ c ∧ c ≤ 'f' then some (c.toNat - 87)
  else if 'A' ≤ c ∧ c ≤ 'F' then some (c.toNat - 55)
  else none

/-- Percent-decoding of a urlencoded component (`+` is a space, `%XX` a
byte).  An invalid escape is kept literally, where Go's `url.ParseQuery`
would instead drop the pair and record an error that `FormValue`
ignores; no claim exercises invalid escapes. -/
def percentDecode : List Char → List Char
  | [] => []
  | '+' :: rest => ' ' :: percentDecode rest
  | '%' :: h1 :: h2 :: rest2 =>
    match hexVal h1, hexVal h2 with
    | some a, some b => Char.ofNat (16 * a + b) :: percentDecode rest2
    | _, _ => '%' :: percentDecode (h1 :: h2 :: rest2)
  | c :: rest => c :: percentDecode rest

/-- Split a character list on every occurrence of `sep`. -/
def splitOnChar (sep : Char) : List Char → List (List Char)
  | [] => [[]]
  | c :: rest =>
    let r := splitOnChar sep rest
    if c = sep then [] :: r
    else
      match r with
      | [] => [[c]]
      | g :: gs => (c :: g) :: gs

/-- Split `k=v` at the first `=`; a pair with no `=` has value `""`
(Go's `strings.Cut`). -/
def splitPair : List Char → List Char × List Char
  | [] => ([], [])
  | c :: rest =>
    if c = '=' then ([], rest)
    else
      let p := splitPair rest
      (c :: p.1, p.2)

/-- `url.ParseQuery`: split the body on `&`, skip empty segments, and
split and percent-decode each `key=value` pair. -/
def parseUrlencoded (s : String) : List (String × String) :=
  (splitOnChar '&' s.toList).filterMap fun seg =>
    if seg = [] then none
    else
      let kv := splitPair seg
      some (String.mk (percentDecode kv.1), String.mk (percentDecode kv.2))

/-- Go's `r.FormValue(key)` (main.go:137-139): for a POST whose content
type is the urlencoded form type it parses the body and returns the
first value bound to `key`, else the empty string (query parameters,
the remaining fallback, are not modelled — see `Request`). -/
def formValue (r : Request) (key : String) : String :=
  if r.method = "POST" ∧ r.contentType = "application/x-www-form-urlencoded" then
    match (parseUrlencoded r.rawBody).find? (fun kv => kv.1 = key) with
    | some kv => kv.2
    | none => ""
  else ""

/-- Quote a character between apostrophes, as Go error messages do. -/
def charQuote (c : Char) : String :=
  String.singleton (Char.ofNat 39) ++ String.singleton c
    ++ String.singleton (Char.ofNat 39)

/-- A decoded JSON value, as far as unmarshalling into the `Note` struct
needs to distinguish its kind: strings carry their text (for the
`title`/`body` assignment and the `created_at` time parse), numbers
their literal (for the int64 check on `id`), booleans and composites
only their kind — the contents of arrays and nested objects are scanned
and discarded, as Go's decoder does for unknown object keys. -/
inductive JVal
  | str (s : String)
  | num (lit : String)
  | boolv
  | nul
  | arr
  | obj
deriving Repr, DecidableEq

/-- ASCII lowercasing, as Go `encoding/json` uses for its
case-insensitive field-name match. -/
def lowerAscii (s : String) : String :=
  String.mk (s.toList.map fun c =>
    if 'A' ≤ c ∧ c ≤ 'Z' then Char.ofNat (c.toNat + 32) else c)

/-- Skip JSON whitespace. -/
def skipWs : List Char → List Char
  | [] => []
  | c :: rest =>
    if c = ' ' ∨ c = '\t' ∨ c = '\n' ∨ c = '\r' then skipWs rest else c :: rest

/-- Parse the remainder of a JSON string literal (the opening quote
already consumed), validating escape sequences and bare control
characters as Go's scanner does.  (An invalid surrogate from a `\u`
escape is not replaced with U+FFFD; no error depends on that.) -/
def parseJStr (fuel : Nat) (cs : List Char) (acc : String) :
    Except String (String × List Char) :=
  match fuel with
  | 0 => .error "unexpected end of JSON input"
  | fuel + 1 =>
    match cs with
    | [] => .error "unexpected end of JSON input"
    | c :: rest =>
      if c = '"' then .ok (acc, rest)
      else if c = '\\' then
        match rest with
        | [] => .error "unexpected end of JSON input"
        | d :: rest2 =>
          if d = '"' ∨ d = '\\' ∨ d = '/' then parseJStr fuel rest2 (acc.push d)
          else if d = 'b' then parseJStr fuel rest2 (acc.push (Char.ofNat 8))
          else if d = 'f' then parseJStr fuel rest2 (acc.push (Char.ofNat 12))
          else if d = 'n' then parseJStr fuel rest2 (acc.push (Char.ofNat 10))
          else if d = 'r' then parseJStr fuel rest2 (acc.push (Char.ofNat 13))
          else if d = 't' then parseJStr fuel rest2 (acc.push (Char.ofNat 9))
          else if d = 'u' then
            match rest2 with
            | h1 :: h2 :: h3 :: h4 :: rest3 =>
              match hexVal h1, hexVal h2, hexVal h3, hexVal h4 with
              | some a, some b, some c2, some d2 =>
                parseJStr fuel rest3
                  (acc.push (Char.ofNat (((a * 16 + b) * 16 + c2) * 16 + d2)))
              | _, _, _, _ =>
                .error "invalid character in string escape code"
            | _ => .error "unexpected end of JSON input"
          else
            .error ("invalid character " ++ charQuote d
                    ++ " in string escape code")
      else if c.toNat < 32 then
        .error ("invalid character " ++ charQuote c ++ " in string literal")
      else parseJStr fuel rest (acc.push c)

/-- Scan a JSON number per the grammar Go's scanner uses, returning its
literal text.  The caller has checked that the input starts with a
digit or a minus sign.  A leading zero ends the integer part at once,
so `01` is the number `0` followed by a stray `1` — rejected by
whatever expects the next token, exactly as in Go. -/
def parseNumber (cs : List Char) : Except String (String × List Char) :=
  let sign : List Char × List Char :=
    match cs with
    | '-' :: rest => (['-'], rest)
    | _ => ([], cs)
  match sign.2 with
  | [] => .error "unexpected end of JSON input"
  | c :: _ =>
    if ¬c.isDigit then
      .error ("invalid character " ++ charQuote c ++ " in numeric literal")
    else
      let ip : List Char × List Char :=
        if c = '0' then (['0'], sign.2.tail)
        else digitSpan sign.2
      let fr : Except String (List Char × List Char) :=
        match ip.2 with
        | '.' :: rest =>
          match rest with
          | [] => .error "unexpected end of JSON input"
          | d :: _ =>
            if d.isDigit then
              let p := digitSpan rest
              .ok ('.' :: p.1, p.2)
            else
              .error ("invalid character " ++ charQuote d
                      ++ " after decimal point in numeric literal")
        | _ => .ok ([], ip.2)
      match fr with
      | .error e => .error e
      | .ok frp =>
        let ex : Except String (List Char × List Char) :=
          match frp.2 with
          | e :: rest =>
            if e = 'e' ∨ e = 'E' then
              let sgn : List Char × List Char :=
                match rest with
                | s2 :: r2 => if s2 = '+' ∨ s2 = '-' then ([s2], r2)
                              else ([], rest)
                | [] => ([], rest)
              match sgn.2 with
              | [] => .error "unexpected end of JSON input"
              | d :: _ =>
                if d.isDigit then
                  let p := digitSpan sgn.2
                  .ok (e :: (sgn.1 ++ p.1), p.2)
                else
                  .error ("invalid character " ++ charQuote d
                          ++ " in exponent of numeric literal")
            else .ok ([], frp.2)
          | [] => .ok ([], frp.2)
        match ex with
        | .error e => .error e
        | .ok exp2 =>
          .ok (String.mk (sign.1 ++ ip.1 ++ frp.1 ++ exp2.1), exp2.2)

/-- Check the remaining characters of a literal (`null`, `true`,
`false`), with Go's scanner errors. -/
def parseLiteral (expected : List Char) (name : String) (cs : List Char) :
    Except String (List Char) :=
  match expected, cs with
  | [], rest => .ok rest
  | _ :: _, [] => .error "unexpected end of JSON input"
  | e :: es, c :: rest =>
    if c = e then parseLiteral es name rest
    else
      .error ("invalid character " ++ charQuote c ++ " in literal "
              ++ name ++ " (expecting " ++ charQuote e ++ ")")

mutual

/-- Parse one JSON value of any kind, returning its `JVal` summary and
the remaining input.  Composite values are fully scanned and their
contents discarded. -/
def parseJVal : Nat → List Char → Except String (JVal × List Char)
  | 0, _ => .error "unexpected end of JSON input"
  | fuel + 1, cs =>
    match skipWs cs with
    | [] => .error "unexpected end of JSON input"
    | c :: rest =>
      if c = '"' then
        match parseJStr fuel rest "" with
        | .error e => .error e
        | .ok p => .ok (JVal.str p.1, p.2)
      else if c = Char.ofNat 123 then
        match skipWs rest with
        | [] => .error "unexpected end of JSON input"
        | d :: rest2 =>
          if d = Char.ofNat 125 then .ok (JVal.obj, rest2)
          else skipObjFields fuel (d :: rest2)
      else if c = '[' then
        match skipWs rest with
        | [] => .error "unexpected end of JSON input"
        | d :: rest2 =>
          if d = ']' then .ok (JVal.arr, rest2)
          else skipArrElems fuel (d :: rest2)
      else if c = 'n' then
        match parseLiteral ['u', 'l', 'l'] "null" rest with
        | .error e => .error e
        | .ok r => .ok (JVal.nul, r)
      else if c = 't' then
        match parseLiteral ['r', 'u', 'e'] "true" rest with
        | .error e => .error e
        | .ok r => .ok (JVal.boolv, r)
      else if c = 'f' then
        match parseLiteral ['a', 'l', 's', 'e'] "false" rest with
        | .error e => .error e
        | .ok r => .ok (JVal.boolv, r)
      else if c.isDigit ∨ c = '-' then
        match parseNumber (c :: rest) with
        | .error e => .error e
        | .ok p => .ok (JVal.num p.1, p.2)
      else
        .error ("invalid character " ++ charQuote c
                ++ " looking for beginning of value")

/-- Scan the `"key": value` fields of an object whose contents are
discarded, positioned at the first key. -/
def skipObjFields : Nat → List Char → Except String (JVal × List Char)
  | 0, _ => .error "unexpected end of JSON input"
  | fuel + 1, cs =>
    match cs with
    | [] => .error "unexpected end of JSON input"
    | c :: rest =>
      if c = '"' then
        match parseJStr fuel rest "" with
        | .error e => .error e
        | .ok p =>
          match skipWs p.2 with
          | ':' :: r2 =>
            match parseJVal fuel r2 with
            | .error e => .error e
            | .ok q =>
              match skipWs q.2 with
              | ',' :: r4 => skipObjFields fuel (skipWs r4)
              | d :: r4 =>
                if d = Char.ofNat 125 then .ok (JVal.obj, r4)
                else
                  .error ("invalid character " ++ charQuote d
                          ++ " after object key:value pair")
              | [] => .error "unexpected end of JSON input"
          | d :: _ =>
            .error ("invalid character " ++ charQuote d
                    ++ " after object key")
          | [] => .error "unexpected end of JSON input"
      else
        .error ("invalid character " ++ charQuote c
                ++ " looking for beginning of object key string")

/-- Scan the elements of an array whose contents are discarded,
positioned at the first element. -/
def skipArrElems : Nat → List Char → Except String (JVal × List Char)
  | 0, _ => .error "unexpected end of JSON input"
  | fuel + 1, cs =>
    match parseJVal fuel cs with
    | .error e => .error e
    | .ok p =>
      match skipWs p.2 with
      | ',' :: r2 => skipArrElems fuel r2
      | d :: r2 =>
        if d = ']' then .ok (JVal.arr, r2)
        else
          .error ("invalid character " ++ charQuote d
                  ++ " after array element")
      | [] => .error "unexpected end of JSON input"

end

/-- Whether a JSON number literal is accepted by `strconv.ParseInt` for
an int64 field: an optional minus sign and digits only (no fraction or
exponent), within the int64 range. -/
def validInt64 (lit : String) : Bool :=
  let sp : Bool × List Char :=
    match lit.toList with
    | '-' :: rest => (true, rest)
    | cs => (false, cs)
  sp.2 ≠ [] ∧ sp.2.all Char.isDigit ∧
    (if sp.1 then digitsToNat sp.2 ≤ 9223372036854775808
     else digitsToNat sp.2 ≤ 9223372036854775807)

/-- Exactly `n` decimal digits, most significant first. -/
def parseNDigits : Nat → List Char → Option (Nat × List Char)
  | 0, cs => some (0, cs)
  | _ + 1, [] => none
  | n + 1, c :: rest =>
    if c.isDigit then
      match parseNDigits n rest with
      | some p => some ((c.toNat - 48) * 10 ^ n + p.1, p.2)
      | none => none
    else none

/-- Expect one specific character. -/
def expectChar (c : Char) : List Char → Option (List Char)
  | d :: rest => if d = c then some rest else none
  | [] => none

/-- Optional fractional seconds: a dot followed by at least one digit. -/
def skipFrac : List Char → Option (List Char)
  | '.' :: rest =>
    let p := digitSpan rest
    if p.1 = [] then none else some p.2
  | cs => some cs

/-- `Z` or a `±hh:mm` offset with the fields range-checked. -/
def parseOffset : List Char → Option (List Char)
  | 'Z' :: rest => some rest
  | c :: rest =>
    if c = '+' ∨ c = '-' then
      match parseNDigits 2 rest with
      | some oh =>
        match expectChar ':' oh.2 with
        | some r2 =>
          match parseNDigits 2 r2 with
          | some om =>
            if oh.1 ≤ 23 ∧ om.1 ≤ 59 then some om.2 else none
          | none => none
        | none => none
      | none => none
    else none
  | [] => none

/-- Gregorian leap year. -/
def isLeapYear (y : Nat) : Bool :=
  (y % 4 = 0 ∧ y % 100 ≠ 0) ∨ y % 400 = 0

/-- Days in a month, accounting for leap years. -/
def daysIn (y m : Nat) : Nat :=
  if m = 2 then (if isLeapYear y then 29 else 28)
  else if m = 4 ∨ m = 6 ∨ m = 9 ∨ m = 11 then 30
  else 31

/-- Go's strict RFC3339 parse (`time.Parse` with the RFC3339 layout, as
`time.Time.UnmarshalJSON` uses it): `YYYY-MM-DDThh:mm:ss`, optional
fractional seconds, then `Z` or a `±hh:mm` offset, with every field
range-checked — days against the month and leap year. -/
def isRFC3339 (s : String) : Bool :=
  match
    (do
      let y ← parseNDigits 4 s.toList
      let r ← expectChar '-' y.2
      let mo ← parseNDigits 2 r
      let r ← expectChar '-' mo.2
      let d ← parseNDigits 2 r
      let r ← expectChar 'T' d.2
      let h ← parseNDigits 2 r
      let r ← expectChar ':' h.2
      let mi ← parseNDigits 2 r
      let r ← expectChar ':' mi.2
      let sec ← parseNDigits 2 r
      let r ← skipFrac sec.2
      let r ← parseOffset r
      pure (y.1, mo.1, d.1, h.1, mi.1, sec.1, r) :
        Option (Nat × Nat × Nat × Nat × Nat × Nat × List Char))
  with
  | none => false
  | some (y, mo, d, h, mi, sec, rest) =>
    decide (rest = [] ∧ 1 ≤ mo ∧ mo ≤ 12 ∧ 1 ≤ d ∧ d ≤ daysIn y mo
            ∧ h ≤ 23 ∧ mi ≤ 59 ∧ sec ≤ 59)

/-- Go's `UnmarshalTypeError` text for a struct field of `Note`. -/
def fieldErr (kind field ty : String) : String :=
  "json: cannot unmarshal " ++ kind ++ " into Go struct field Note."
    ++ field ++ " of type " ++ ty

/-- Store one decoded value into the `Note` field its (lowercased) key
selects, or report the unmarshalling error Go would: `title`/`body`
take a string, `id` an in-range integer number, `created_at` an
RFC3339 string (`time.Time.UnmarshalJSON` rejects any non-string with
its fixed message; its time-parse error text is abbreviated here to a
stable prefix of Go's elaborate one); `null` leaves any field
untouched and unknown keys are ignored. -/
def storeField (lk : String) (v : JVal) (title body : String) :
    Except String (String × String) :=
  if lk = "title" ∨ lk = "body" then
    match v with
    | .str s => .ok (if lk = "title" then (s, body) else (title, s))
    | .nul => .ok (title, body)
    | .num _ => .error (fieldErr "number" lk "string")
    | .boolv => .error (fieldErr "bool" lk "string")
    | .arr => .error (fieldErr "array" lk "string")
    | .obj => .error (fieldErr "object" lk "string")
  else if lk = "id" then
    match v with
    | .num lit =>
      if validInt64 lit then .ok (title, body)
      else .error (fieldErr ("number " ++ lit) "id" "int64")
    | .nul => .ok (title, body)
    | .str _ => .error (fieldErr "string" "id" "int64")
    | .boolv => .error (fieldErr "bool" "id" "int64")
    | .arr => .error (fieldErr "array" "id" "int64")
    | .obj => .error (fieldErr "object" "id" "int64")
  else if lk = "created_at" then
    match v with
    | .str s =>
      if isRFC3339 s then .ok (title, body)
      else .error ("parsing time " ++ jsonStringLit s
                   ++ " as RFC3339: cannot parse")
    | .nul => .ok (title, body)
    | _ => .error "Time.UnmarshalJSON: input is not a JSON string"
  else .ok (title, body)

/-- Parse the `"key": value` fields of the object being unmarshalled
into a `Note`, positioned at the first key.  Field names match
case-insensitively; later duplicates overwrite; unknown keys are
scanned and discarded whatever their value kind; known keys go through
`storeField`.  (Where Go would keep scanning after a saved type error
and could surface a later syntax error instead, this model reports the
type error at once; both sides fail either way.) -/
def parseFields (fuel : Nat) (cs : List Char) (title body : String) :
    Except String (String × String) :=
  match fuel with
  | 0 => .error "unexpected end of JSON input"
  | fuel + 1 =>
    match cs with
    | [] => .error "unexpected end of JSON input"
    | c :: rest =>
      if c = '"' then
        match parseJStr fuel rest "" with
        | .error e => .error e
        | .ok p =>
          match skipWs p.2 with
          | ':' :: r2 =>
            match parseJVal fuel r2 with
            | .error e => .error e
            | .ok q =>
              match storeField (lowerAscii p.1) q.1 title body with
              | .error e => .error e
              | .ok tb =>
                match skipWs q.2 with
                | ',' :: r4 => parseFields fuel (skipWs r4) tb.1 tb.2
                | d :: _ =>
                  if d = Char.ofNat 125 then .ok tb
                  else
                    .error ("invalid character " ++ charQuote d
                            ++ " after object key:value pair")
                | [] => .error "unexpected end of JSON input"
          | d :: _ =>
            .error ("invalid character " ++ charQuote d
                    ++ " after object key")
          | [] => .error "unexpected end of JSON input"
      else
        .error ("invalid character " ++ charQuote c
                ++ " looking for beginning of object key string")

/-- Go `json.Decoder.Decode(&n)` for `var n Note` (main.go:147-151): an
empty body is the `EOF` error; a top-level object binds `title`/`body`
(absent fields keep the zero value `""`), type-checks `id` and
`created_at` values, and skips unknown keys of any value kind; a
top-level `null` leaves the struct untouched; any other well-formed
top-level value is an `UnmarshalTypeError`; malformed input is the
scanner's syntax error.  Data after the first value is left unread, as
for a streaming decoder. -/
def jsonDecodeNote (s : String) : Except String (String × String) :=
  let fuel := 4 * s.length + 8
  match skipWs s.toList with
  | [] => .error "EOF"
  | c :: rest =>
    if c = Char.ofNat 123 then
      match skipWs rest with
      | [] => .error "unexpected end of JSON input"
      | d :: rest2 =>
        if d = Char.ofNat 125 then .ok ("", "")
        else parseFields fuel (d :: rest2) "" ""
    else
      match parseJVal fuel (c :: rest) with
      | .error e => .error e
      | .ok p =>
        match p.1 with
        | .nul => .ok ("", "")
        | .str _ =>
          .error "json: cannot unmarshal string into Go value of type main.Note"
        | .num _ =>
          .error "json: cannot unmarshal number into Go value of type main.Note"
        | .boolv =>
          .error "json: cannot unmarshal bool into Go value of type main.Note"
        | .arr =>
          .error "json: cannot unmarshal array into Go value of type main.Note"
        | .obj => .ok ("", "")

/-- `returnID` (main.go:155-167): runs the insert statement and answers
`{"id": N}` with the JSON content type (`Encode` appends a newline). -/
def returnID (db : DB) (now : Int) (title body : String) : Response × DB :=
  let ins := insertNote db now title body
  ({ status := 200
     contentType := some "application/json"
     body := "\x7b\"id\":" ++ toString ins.2 ++ "\x7d\n" }, ins.1)

/-- `saveNote` (main.go:134-153): a request whose `Content-Type` header
is not exactly `application/json` is treated as a form submission —
accepted iff `FormValue` yields a non-empty `title` or `body` — while an
exact `application/json` header routes the body to the JSON decoder,
whose failure is a 400 carrying the decoder's error text. -/
def saveNote (db : DB) (now : Int) (r : Request) : Response × DB :=
  if r.contentType ≠ "application/json" then
    if formValue r "title" ≠ "" ∨ formValue r "body" ≠ "" then
      returnID db now (formValue r "title") (formValue r "body")
    else (httpError "bad request" 400, db)
  else
    match jsonDecodeNote r.rawBody with
    | .error e => (httpError e 400, db)
    | .ok tb => returnID db now tb.1 tb.2

/-- `handleNotes` (main.go:83-92): dispatch on the method only. -/
def handleNotes (db : DB) (now : Int) (r : Request) : Response × DB :=
  if r.method = "GET" then (listNotes db, db)
  else if r.method = "POST" then saveNote db now r
  else (httpError "method not allowed" 405, db)

/-- The id extraction `r.URL.Path[len("/api/notes/"):]` (main.go:99). -/
def pathID (path : String) : String :=
  path.drop "/api/notes/".length

/-- `handleNoteByID` (main.go:94-110): DELETE only; an empty id suffix
is a 400 before any storage call; otherwise the delete statement runs,
a storage error surfaces as 500, and success is an empty 204. -/
def handleNoteByID (db : DB) (r : Request) : Response × DB :=
  if r.method ≠ "DELETE" then (httpError "method not allowed" 405, db)
  else if pathID r.path = "" then (httpError "bad request" 400, db)
  else
    match deleteNote db (pathID r.path) with
    | .error e => (httpError e 500, db)
    | .ok db2 => ({ status := 204, contentType := none, body := "" }, db2)

/-- `handleIndex` (main.go:74-81): no method check; any path other than
`/` is a 404, and `/` serves the page rendered from the startup template
(`Execute` with nil data — the page is a fixed string) as HTML. -/
def handleIndex (page : String) (r : Request) : Response :=
  if r.path ≠ "/" then notFoundResponse
  else { status := 200
         contentType := some "text/html; charset=utf-8"
         body := page }

/-- Whether scanning the text leaves a `\x7b\x7b` action unclosed — the
template-parse failure mode relevant here; Go's `template.Parse` rejects
such input with an `unclosed action` error. -/
def hasUnclosedAction : List Char → Bool → Bool
  | [], inAction => inAction
  | [_], inAction => inAction
  | c :: d :: rest, inAction =>
    if ¬inAction ∧ c = Char.ofNat 123 ∧ d = Char.ofNat 123 then
      hasUnclosedAction rest true
    else if inAction ∧ c = Char.ofNat 125 ∧ d = Char.ofNat 125 then
      hasUnclosedAction rest false
    else hasUnclosedAction (d :: rest) inAction

/-- Go `template.New("").Parse(text)` restricted to the failure mode
above; in particular the empty string parses successfully (an empty
template). -/
def templateParse (s : String) : Except String Unit :=
  if hasUnclosedAction s.toList false then
    .error "template: :1: unclosed action"
  else .ok ()

/-- Outcome of the template-initialization step of `main`. -/
inductive StartupResult
  | started (tpl : String)
  | aborted (msg : String)
deriving Repr, DecidableEq

/-- main.go:45-46: `tplBytes, _ := staticFS.ReadFile(...)` followed by
`template.Must(template.New("").Parse(string(tplBytes)))`.  The read
error is discarded by the blank identifier, so a failed read leaves
`tplBytes` nil and `string(nil) = ""` is what gets parsed; only a parse
error aborts the process, via `Must`'s panic. -/
def startupTemplateInit (readResult : Except String String) : StartupResult :=
  let tplBytes := match readResult with
    | .ok bytes => bytes
    | .error _ => ""
  match templateParse tplBytes with
  | .error e => .aborted e
  | .ok _ => .started tplBytes

/-- Helper: when every binding of `key` in the parsed form body is
empty, `FormValue` yields the empty string — whether or not the key
occurs at all. -/
theorem formValue_eq_empty (r : Request) (key : String)
    (h : ∀ v, (key, v) ∈ parseUrlencoded r.rawBody → v = "") :
    formValue r key = "" := by
  unfold formValue
  split
  · cases hfind : (parseUrlencoded r.rawBody).find? (fun kv => kv.1 = key) with
    | none => rfl
    | some kv =>
      have hk : kv.1 = key := by simpa using List.find?_some hfind
      have hmem : (kv.1, kv.2) ∈ parseUrlencoded r.rawBody :=
        List.mem_of_find?_eq_some hfind
      rw [hk] at hmem
      simpa using h kv.2 hmem
  · rfl

/-- C1 — counterexample.  With an empty store, `GET /api/notes` answers
status 200 with content type `application/json`, but the body is the
JSON literal `null` (the nil `[]Note` slice), not the empty array `[]`
the claim requires. -/
theorem C1_counterexample :
    listNotes ⟨[], 1⟩
      = { status := 200, contentType := some "application/json",
          body := "null\n" }
    ∧ ("null\n" : String) ≠ "[]" ∧ ("null\n" : String) ≠ "[]\n" := by
  refine ⟨rfl, ?_, ?_⟩ <;> decide

/-- C1 — amended: for every GET request dispatched to `/api/notes` when
the store holds no notes, the handler responds with status 200, content
type `application/json`, and the body `null` (the JSON null literal
followed by the encoder's newline), the serialization of the nil slice
— not an error, but also not the empty array. -/
theorem C1_empty_list_returns_null (nid : Int) (now : Int) (r : Request)
    (hm : r.method = "GET") :
    handleNotes ⟨[], nid⟩ now r
      = ({ status := 200, contentType := some "application/json",
           body := "null\n" }, ⟨[], nid⟩) := by
  simp [handleNotes, hm, listNotes, listNotesQuery, encodeNotes,
        List.insertionSort]

/-- C1 — witness for the amended theorem at a concrete request. -/
theorem C1_empty_list_returns_null_witness :
    handleNotes ⟨[], 1⟩ 0 ⟨"GET", "/api/notes", "", ""⟩
      = ({ status := 200, contentType := some "application/json",
           body := "null\n" }, ⟨[], 1⟩) :=
  C1_empty_list_returns_null 1 0 ⟨"GET", "/api/notes", "", ""⟩ rfl

/-- C2 — counterexample.  A missing embedded asset does NOT abort the
process: `ReadFile`'s error is discarded by the blank identifier, the
nil bytes become the empty string, the empty template parses, and
startup proceeds serving an empty page — contradicting the claim that a
missing asset fails the process at startup. -/
theorem C2_counterexample :
    startupTemplateInit
        (.error "open static/index.html: file does not exist")
      = .started "" := rfl

/-- C2 — amended: only a template-parse failure aborts the process at
startup (via `template.Must`'s panic); when the embedded asset is
missing, the read error is ignored, the empty string parses as an empty
template, and the process starts serving requests. -/
theorem C2_template_startup (s e f : String) :
    (templateParse s = .error e →
      startupTemplateInit (.ok s) = .aborted e) ∧
    startupTemplateInit (.error f) = .started "" := by
  constructor
  · intro h
    simp [startupTemplateInit, h]
  · rfl

/-- C2 — witness: a template with an unclosed action aborts startup,
while a failed asset read starts the process with the empty template. -/
theorem C2_template_startup_witness :
    templateParse "\x7b\x7bif" = .error "template: :1: unclosed action"
    ∧ startupTemplateInit (.ok "\x7b\x7bif")
        = .aborted "template: :1: unclosed action"
    ∧ startupTemplateInit (.error "no such file") = .started "" :=
  ⟨rfl,
   (C2_template_startup "\x7b\x7bif" "template: :1: unclosed action"
      "no such file").1 rfl,
   (C2_template_startup "" "" "no such file").2⟩

/-- C3 — confirmed.  A POST to `/api/notes` with a form-encoded body in
which neither `title` nor `body` is bound to a non-empty value is
answered with status 400 and leaves the store untouched. -/
theorem C3_form_missing_fields_400 (db : DB) (now : Int) (r : Request)
    (hm : r.method = "POST")
    (hct : r.contentType = "application/x-www-form-urlencoded")
    (ht : ∀ v, ("title", v) ∈ parseUrlencoded r.rawBody → v = "")
    (hb : ∀ v, ("body", v) ∈ parseUrlencoded r.rawBody → v = "") :
    handleNotes db now r = (httpError "bad request" 400, db) := by
  have ht' : formValue r "title" = "" := formValue_eq_empty r "title" ht
  have hb' : formValue r "body" = "" := formValue_eq_empty r "body" hb
  simp [handleNotes, hm, saveNote, hct, ht', hb']

/-- C3 — witness at a POST whose form body is empty. -/
theorem C3_form_missing_fields_400_witness :
    (∀ v, ("title", v) ∈ parseUrlencoded "" → v = "")
    ∧ (∀ v, ("body", v) ∈ parseUrlencoded "" → v = "")
    ∧ handleNotes ⟨[], 1⟩ 0
        ⟨"POST", "/api/notes", "application/x-www-form-urlencoded", ""⟩
      = (httpError "bad request" 400, ⟨[], 1⟩) :=
  ⟨by simp [parseUrlencoded, splitOnChar],
   by simp [parseUrlencoded, splitOnChar],
   C3_form_missing_fields_400 ⟨[], 1⟩ 0
     ⟨"POST", "/api/notes", "application/x-www-form-urlencoded", ""⟩
     rfl rfl (by simp [parseUrlencoded, splitOnChar]) (by simp [parseUrlencoded, splitOnChar])⟩

/-- C4 — confirmed.  Starting from an empty store, posting a form note
with title `T` and body `B` answers 200 with `{"id":1}`, and a
subsequent GET lists exactly that one note: title `T`, body `B`, the
(non-null) id `1`, and a (non-null) `created_at` equal to the insertion
time, hence not later than any current time `now2 ≥ now`. -/
theorem C4_roundtrip (now now2 : Int) (h : now ≤ now2) :
    ∃ note : Note,
      saveNote ⟨[], 1⟩ now
          ⟨"POST", "/api/notes", "application/x-www-form-urlencoded",
            "title=T&body=B"⟩
        = ({ status := 200, contentType := some "application/json",
             body := "\x7b\"id\":1\x7d\n" }, ⟨[note], 2⟩)
      ∧ listNotesQuery ⟨[note], 2⟩ = [note]
      ∧ (handleNotes ⟨[note], 2⟩ now2 ⟨"GET", "/api/notes", "", ""⟩).1
          = { status := 200, contentType := some "application/json",
              body := encodeNotes [note] ++ "\n" }
      ∧ note.title = "T" ∧ note.body = "B" ∧ note.id = 1
      ∧ note.createdAt ≤ now2 := by
  refine ⟨⟨1, "T", "B", now⟩, ?_, rfl, ?_, rfl, rfl, rfl, h⟩
  · rfl
  · simp [handleNotes, listNotes, listNotesQuery, List.insertionSort]

/-- C4 — witness at concrete times 5 ≤ 7. -/
theorem C4_roundtrip_witness :
    (5 : Int) ≤ 7
    ∧ ∃ note : Note,
        saveNote ⟨[], 1⟩ 5
            ⟨"POST", "/api/notes", "application/x-www-form-urlencoded",
              "title=T&body=B"⟩
          = ({ status := 200, contentType := some "application/json",
               body := "\x7b\"id\":1\x7d\n" }, ⟨[note], 2⟩)
        ∧ listNotesQuery ⟨[note], 2⟩ = [note]
        ∧ (handleNotes ⟨[note], 2⟩ 7 ⟨"GET", "/api/notes", "", ""⟩).1
            = { status := 200, contentType := some "application/json",
                body := encodeNotes [note] ++ "\n" }
        ∧ note.title = "T" ∧ note.body = "B" ∧ note.id = 1
        ∧ note.createdAt ≤ 7 :=
  ⟨by decide, C4_roundtrip 5 7 (by decide)⟩

/-- C5 — confirmed.  The list query returns exactly the stored notes (a
permutation of the table) ordered by `created_at` descending, and the
GET handler serves that sequence; with pairwise distinct creation times
this order is strictly newest-first. -/
theorem C5_list_ordered_desc (db : DB) :
    List.Perm (listNotesQuery db) db.notes
    ∧ List.Sorted createdDesc (listNotesQuery db)
    ∧ (listNotes db).status = 200
    ∧ (listNotes db).body = encodeNotes (listNotesQuery db) ++ "\n" :=
  ⟨List.perm_insertionSort createdDesc db.notes,
   List.sorted_insertionSort createdDesc db.notes, rfl, rfl⟩

/-- C6 — counterexample.  The claim quantifies over every non-empty id
with no matching note, but the id is forwarded to the store as text: for
the non-numeric id `x` (which no stored note has — the store is empty)
PostgreSQL's integer coercion fails and the handler answers 500 with the
error text, not the claimed 204. -/
theorem C6_counterexample :
    handleNoteByID ⟨[], 5⟩ ⟨"DELETE", "/api/notes/x", "", ""⟩
      = (httpError "pq: invalid input syntax for type integer: \"x\"" 500,
         ⟨[], 5⟩)
    ∧ (handleNoteByID ⟨[], 5⟩ ⟨"DELETE", "/api/notes/x", "", ""⟩).1.status
        ≠ 204 := by
  constructor <;> decide

/-- C6 — amended: for every DELETE to `/api/notes/{id}` whose id suffix
is non-empty and coerces to an integer in the store, if no stored note
has that id the response is an empty-bodied 204 (an idempotent no-op)
and the store is unchanged. -/
theorem C6_delete_absent_id_204 (db : DB) (r : Request) (n : Int)
    (hm : r.method = "DELETE")
    (hne : pathID r.path ≠ "")
    (hn : pgCoerceInt (pathID r.path) = .ok n)
    (habs : ∀ note ∈ db.notes, note.id ≠ n) :
    handleNoteByID db r
      = ({ status := 204, contentType := none, body := "" }, db) := by
  have hfilter : db.notes.filter (fun note => !decide (note.id = n)) = db.notes :=
    List.filter_eq_self.mpr (fun a ha => by simpa using habs a ha)
  simp [handleNoteByID, hm, hne, deleteNote, hn, hfilter]

/-- C6 — witness: deleting the absent numeric id 7 from a store holding
only id 1 answers 204 and leaves the store as it was. -/
theorem C6_delete_absent_id_204_witness :
    pathID "/api/notes/7" ≠ ""
    ∧ pgCoerceInt (pathID "/api/notes/7") = .ok 7
    ∧ (∀ note ∈ ([⟨1, "a", "b", 0⟩] : List Note), note.id ≠ 7)
    ∧ handleNoteByID ⟨[⟨1, "a", "b", 0⟩], 2⟩
          ⟨"DELETE", "/api/notes/7", "", ""⟩
        = ({ status := 204, contentType := none, body := "" },
           ⟨[⟨1, "a", "b", 0⟩], 2⟩) :=
  ⟨by decide, rfl, by decide,
   C6_delete_absent_id_204 ⟨[⟨1, "a", "b", 0⟩], 2⟩
     ⟨"DELETE", "/api/notes/7", "", ""⟩ 7 rfl (by decide) rfl
     (by decide)⟩

/-- C7 — confirmed.  A DELETE whose id path suffix is empty is rejected
with status 400 and the store is untouched — the handler returns before
any storage statement runs. -/
theorem C7_delete_empty_id_400 (db : DB) (r : Request)
    (hm : r.method = "DELETE") (hp : r.path = "/api/notes/") :
    handleNoteByID db r = (httpError "bad request" 400, db) := by
  have h0 : pathID r.path = "" := by rw [hp]; decide
  simp [handleNoteByID, hm, h0]

/-- C7 — witness at a concrete DELETE of `/api/notes/`. -/
theorem C7_delete_empty_id_400_witness :
    handleNoteByID ⟨[⟨1, "a", "b", 0⟩], 2⟩ ⟨"DELETE", "/api/notes/", "", ""⟩
      = (httpError "bad request" 400, ⟨[⟨1, "a", "b", 0⟩], 2⟩) :=
  C7_delete_empty_id_400 ⟨[⟨1, "a", "b", 0⟩], 2⟩
    ⟨"DELETE", "/api/notes/", "", ""⟩ rfl rfl

/-- C8 — confirmed.  Branch selection in `saveNote` is exact string
equality on the `Content-Type` header: the parameterized value
`application/json; charset=utf-8` takes the form branch, where the JSON
body yields no form fields, so the request is rejected with 400 and the
store is unchanged. -/
theorem C8_param_content_type_form_400 (db : DB) (now : Int) (r : Request)
    (hm : r.method = "POST")
    (hct : r.contentType = "application/json; charset=utf-8") :
    handleNotes db now r = (httpError "bad request" 400, db) := by
  have ht : formValue r "title" = "" := by simp [formValue, hct]
  have hb : formValue r "body" = "" := by simp [formValue, hct]
  simp [handleNotes, hm, saveNote, hct, ht, hb]

/-- C8 — witness: a well-formed JSON body sent with the parameterized
content type is rejected with 400. -/
theorem C8_param_content_type_form_400_witness :
    handleNotes ⟨[], 1⟩ 0
        ⟨"POST", "/api/notes", "application/json; charset=utf-8",
          "\x7b\"title\":\"T\"\x7d"⟩
      = (httpError "bad request" 400, ⟨[], 1⟩) :=
  C8_param_content_type_form_400 ⟨[], 1⟩ 0
    ⟨"POST", "/api/notes", "application/json; charset=utf-8",
      "\x7b\"title\":\"T\"\x7d"⟩ rfl rfl

/-- C9 — confirmed.  The root handler never inspects the method: for
every method, path `/` is served the rendered page with status 200 and
an HTML content type, and any other path routed to it gets the 404
not-found response. -/
theorem C9_index_ignores_method (page : String) (r : Request) :
    (r.path = "/" →
      handleIndex page r
        = { status := 200, contentType := some "text/html; charset=utf-8",
            body := page })
    ∧ (r.path ≠ "/" → handleIndex page r = notFoundResponse)
    ∧ notFoundResponse.status = 404 := by
  refine ⟨fun h => by simp [handleIndex, h], fun h => by simp [handleIndex, h],
          rfl⟩

/-- C9 — witness: a DELETE of `/` is served the page; a POST of another
path is a 404. -/
theorem C9_index_ignores_method_witness :
    handleIndex "page" ⟨"DELETE", "/", "", ""⟩
      = { status := 200, contentType := some "text/html; charset=utf-8",
          body := "page" }
    ∧ handleIndex "page" ⟨"POST", "/api/x", "", ""⟩ = notFoundResponse :=
  ⟨(C9_index_ignores_method "page" ⟨"DELETE", "/", "", ""⟩).1 rfl,
   (C9_index_ignores_method "page" ⟨"POST", "/api/x", "", ""⟩).2.1
     (by decide)⟩

